import Mathlib

/-!
Verification development for the prod-scout repository.

Shallow embedding of the parts of the code the claims talk about:

* `x_scraper/account_pool.py`  — credential pool (`AccountState`, `AccountPool`,
  `get_next`, `mark_rate_limited`, `mark_dead`, `wait_for_available`,
  `from_env_file`).
* `x_scraper/client.py`        — the SFN paginator `get_user_tweets_all`.
* `x_scraper/models.py`        — `Tweet._build_content_html`, `Tweet.to_post_dict`.
* `native_scout/stages/llm_organizer.py` and
  `daft_scout/stages/llm_organizer.py`   — the organize stage retry loop and
  post-parse handling.
* `native_scout/stages/result_writer.py` — the write stage (quality tier,
  file naming, entity view, manifest stats).

Machine conventions: Python `float` timestamps are modelled as `Nat`
(only ordering and addition are used by the code), `datetime` values as `Int`
(a totally ordered time axis), strings as Lean `String` or `List Char`
(`List Char` where substring/replacement reasoning is needed).  Library
functions of the Python standard library that the code calls but that are not
part of this repository (`json.loads`, `hashlib.md5`) are modelled as
parameters of the embedding.  `str.isalnum` is modelled on ASCII via
`Char.isAlphanum`.
-/

set_option maxHeartbeats 1600000

namespace ProdScout

/-! ## Python string primitives used by the embedded code -/

/-- Python `needle in haystack` check that `pat` starts `s` (`str.startswith`). -/
def pyStartsWith (s pat : List Char) : Bool :=
  match s, pat with
  | _, [] => true
  | [], _ :: _ => false
  | c :: s', p :: ps => c == p && pyStartsWith s' ps

/-- Python substring membership `pat in s`. -/
def pyContains (s pat : List Char) : Bool :=
  pyStartsWith s pat ||
    match s with
    | [] => false
    | _ :: t => pyContains t pat

/-- The scanner of Python `s.replace(old, new)` for a non-empty `old`:
replace every non-overlapping occurrence, scanning left to right (structural
`fuel` recursion; one character is consumed per step, so `s.length` fuel is
always enough). -/
def pyReplaceGo (old new : List Char) : Nat → List Char → List Char
  | _, [] => []
  | 0, c :: s' => c :: s'
  | fuel + 1, c :: s' =>
    if pyStartsWith (c :: s') old then
      match old with
      | [] => c :: s'
      | _ :: olds => new ++ pyReplaceGo old new fuel (s'.drop olds.length)
    else
      c :: pyReplaceGo old new fuel s'

/-- Python `s.replace(old, new)` for a non-empty `old`. -/
def pyReplaceNe (old new s : List Char) : List Char :=
  pyReplaceGo old new s.length s

/-- Python `s.replace(old, new)` (empty `old` inserts `new` around every
character, as CPython does). -/
def pyReplace (s old new : List Char) : List Char :=
  match old with
  | [] => new ++ (s.map (fun c => c :: new)).flatten
  | _ :: _ => pyReplaceNe old new s

/-- `html.escape(s, quote=True)`: `&`, `<`, `>`, `"`, `'` get entity-encoded
(the CPython sequential replaces are extensionally a character-wise map because
no replacement output contains a character replaced later). -/
def htmlEscapeChar (c : Char) : List Char :=
  if c = '&' then "&amp;".data
  else if c = '<' then "&lt;".data
  else if c = '>' then "&gt;".data
  else if c = '"' then "&quot;".data
  else if c = '\'' then "&#x27;".data
  else [c]

/-- `html.escape` on a whole string. -/
def htmlEscape (s : List Char) : List Char :=
  (s.map htmlEscapeChar).flatten

/-- The whitespace set of Python `str.strip()`. -/
def isPySpace (c : Char) : Bool :=
  c == ' ' || c == '\t' || c == '\n' || c == '\r' || c == '\x0b' || c == '\x0c'

/-- Python `s.strip()` on a character list. -/
def pyStrip (s : List Char) : List Char :=
  ((s.dropWhile isPySpace).reverse.dropWhile isPySpace).reverse

/-- Python `s.strip()` on a string. -/
def pyStripStr (s : String) : String :=
  ⟨pyStrip s.data⟩

/-- Python `s.strip(c)` for a one-character set: drop `c` from both ends. -/
def pyStripSet (c : Char) (s : List Char) : List Char :=
  ((s.dropWhile (· == c)).reverse.dropWhile (· == c)).reverse

/-- Python `s.lower()` (ASCII, matching the identifiers the code lowercases). -/
def pyLower (s : String) : String :=
  ⟨s.data.map Char.toLower⟩

end ProdScout

namespace ProdScout

/-! ## `x_scraper/models.py`: `TweetMedia`, `Tweet`, content HTML, post dict -/

/-- `models.TweetMedia` (the fields the content builder reads). -/
structure TweetMedia where
  type : String
  url : String
  deriving Repr, DecidableEq

/-- A quoted tweet as `_build_content_html` reads it (`username`, `text`,
`id` for the permalink). Kept first-order to avoid nested recursion: the code
only ever reads these three fields of `self.quoted_tweet`. -/
structure QuotedRef where
  username : String
  text : String
  id : String
  deriving Repr, DecidableEq

/-- `models.Tweet` — the fields used by the paginator and the adapter.
`created_at` is an `Option Int` point on a totally ordered time axis
(`none` = unparseable date, see `parser._parse_date`). -/
structure Tweet where
  id : String := ""
  text : String := ""
  created_at : Option Int := none
  username : String := ""
  urls : List String := []
  media : List TweetMedia := []
  is_retweet : Bool := false
  quoted_tweet : Option QuotedRef := none
  in_reply_to_id : Option String := none
  in_reply_to_username : Option String := none
  deriving Repr, DecidableEq

/-- `Tweet.permalink` for a quoted reference. -/
def quotedPermalink (q : QuotedRef) : String :=
  "https://x.com/" ++ q.username ++ "/status/" ++ q.id

/-- The `<a>` element built for one URL in `_build_content_html`. -/
def anchorFor (e : List Char) : List Char :=
  "<a href=\"".data ++ e ++ "\">".data ++ e ++ "</a>".data

/-- The per-URL loop of `_build_content_html`: threads the mutable `text`
and accumulates `parts` (the anchors appended for URLs not found in `text`). -/
def contentUrlLoop : List String → List Char → List (List Char) →
    List Char × List (List Char)
  | [], text, parts => (text, parts)
  | url :: rest, text, parts =>
    let e := htmlEscape url.data
    if pyContains text e then
      contentUrlLoop rest (pyReplace text e (anchorFor e)) parts
    else
      contentUrlLoop rest text (parts ++ [anchorFor e])

/-- The media elements appended by `_build_content_html`. -/
def mediaParts (ms : List TweetMedia) : List (List Char) :=
  ms.filterMap fun m =>
    if m.type = "photo" then
      some ("<img src=\"".data ++ htmlEscape m.url.data ++ "\" />".data)
    else if m.type = "video" || m.type = "animated_gif" then
      some ("<video src=\"".data ++ htmlEscape m.url.data ++ "\"></video>".data)
    else
      none

/-- The `<blockquote>` appended for a quoted tweet. -/
def quoteParts (q : Option QuotedRef) : List (List Char) :=
  match q with
  | none => []
  | some qt =>
    let link := htmlEscape (quotedPermalink qt).data
    ["<blockquote><p><b>@".data ++ htmlEscape qt.username.data ++ "</b>: ".data
      ++ htmlEscape (qt.text.data.take 200) ++ "</p>".data
      ++ "<a href=\"".data ++ link ++ "\">".data ++ link ++ "</a></blockquote>".data]

/-- Python `"\n".join(parts)`. -/
def joinNl : List (List Char) → List Char
  | [] => []
  | [p] => p
  | p :: ps => p ++ '\n' :: joinNl ps

/-- `Tweet._build_content_html`. -/
def buildContentHtml (t : Tweet) : List Char :=
  joinNl ((("<p>".data ++ (contentUrlLoop t.urls (htmlEscape t.text.data) []).1
      ++ "</p>".data) :: (contentUrlLoop t.urls (htmlEscape t.text.data) []).2)
    ++ mediaParts t.media ++ quoteParts t.quoted_tweet)

/-- The `RawPost` dictionary fields produced by `Tweet.to_post_dict`. -/
structure RawPost where
  title : String
  date : String
  link : String
  source_type : String
  source_name : String
  content : List Char
  extra_content : String
  extra_urls : List String
  deriving Repr

/-- `Tweet.date_str`. The date rendering function is a parameter (strftime). -/
def dateStr (render : Int → String) (t : Tweet) : String :=
  match t.created_at with
  | some d => render d
  | none => ""

/-- `Tweet.to_post_dict` (the retweet title branch needs the retweeted
tweet; the model restricts to the fields the claims read — `content` is the
claim's subject and is exactly `_build_content_html`). -/
def toPostDict (render : Int → String) (t : Tweet) (sourceName : String) : RawPost :=
  { title := if t.text = "" then "(No text)" else String.mk (t.text.data.take 100)
    date := dateStr render t
    link := "https://x.com/" ++ t.username ++ "/status/" ++ t.id
    source_type := "X"
    source_name := sourceName
    content := buildContentHtml t
    extra_content := ""
    extra_urls := t.urls }

end ProdScout

namespace ProdScout

/-! ## `x_scraper/client.py`: `get_user_tweets_all` (the SFN paginator)

The page fetch (`get_user_tweets`, i.e. the GraphQL call plus the reply
filter) is the network boundary and is modelled as an oracle
`fetch : page-number → per-page count → cursor → (tweets, next cursor)`;
every theorem below holds for an arbitrary oracle.  `since_date` enters the
code only as the parsed `cutoff_date` (`None` when absent or unparseable),
modelled as `Option Int`.  The float comparison `skipped_old / raw_count >= 0.9`
is modelled as the exact rational inequality `10 * skipped_old >= 9 * raw_count`. -/

/-- The date test of the per-tweet loop: `tweet_in_date_range` stays `True`
unless a cutoff is set, the tweet has a parsed date, and the date precedes
the cutoff (`if cutoff_date and tweet.created_at: if tweet.created_at < cutoff_date`). -/
def dateInRange (cutoff : Option Int) (t : Tweet) : Bool :=
  match cutoff, t.created_at with
  | some c, some d => !(d < c)
  | _, _ => true

/-- The per-page mutable state of the tweet loop inside `get_user_tweets_all`:
the shared accumulators (`seen_tweet_ids`, `all_tweets`) plus the per-page
counters used by the termination conditions. -/
structure PageAcc where
  seen : List String
  acc : List Tweet
  hasNewEnough : Bool
  skippedOld : Nat
  skippedRt : Nat
  skippedDup : Nat
  added : Nat
  dupSample : String
  deriving Repr

/-- One iteration of the `for tweet in tweets` loop.  Returns the updated
state and `true` when the loop `break`s (result limit reached). -/
def stepTweet (cutoff : Option Int) (includeRetweets : Bool) (limit : Nat)
    (t : Tweet) (st : PageAcc) : PageAcc × Bool :=
  let inRange := dateInRange cutoff t
  let st := if inRange then { st with hasNewEnough := true } else st
  if !inRange then
    ({ st with skippedOld := st.skippedOld + 1 }, false)
  else if !includeRetweets && t.is_retweet then
    ({ st with skippedRt := st.skippedRt + 1 }, false)
  else if st.seen.contains t.id then
    ({ st with
        skippedDup := st.skippedDup + 1
        dupSample := if t.id ≠ "" && st.dupSample == "" then t.id else st.dupSample },
      false)
  else
    let st := { st with
      seen := t.id :: st.seen
      acc := st.acc ++ [t]
      added := st.added + 1 }
    (st, limit ≤ st.acc.length)

/-- The whole `for tweet in tweets` loop of one page. -/
def processPage (cutoff : Option Int) (includeRetweets : Bool) (limit : Nat)
    (tweets : List Tweet) (st : PageAcc) : PageAcc :=
  match tweets with
  | [] => st
  | t :: rest =>
    if (stepTweet cutoff includeRetweets limit t st).2 then
      (stepTweet cutoff includeRetweets limit t st).1
    else
      processPage cutoff includeRetweets limit rest
        (stepTweet cutoff includeRetweets limit t st).1

/-- The state of the outer `while` loop of `get_user_tweets_all`. -/
structure SweepState where
  allTweets : List Tweet
  seenIds : List String
  seenCursors : List String
  cursor : Option String
  emptyAddPages : Nat
  page : Nat
  deriving Repr

/-- The paginator's page-fetch oracle: page number, requested count, cursor. -/
def FetchOracle := Nat → Nat → Option String → List Tweet × Option String

/-- The termination test applied after a page was processed, in the order of
the source: (A) duplicate-dominated page with no additions, (B) page almost
entirely out of the date window with no additions, (C) three consecutive
pages with no additions, (D) the whole page precedes the cutoff, (E) cursor
exhausted (`None`/empty), repeated, or looping.  All tests are pure, so the
disjunction is exactly the source's early-`break` cascade. -/
def sweepStops (cutoff : Option Int) (pa : PageAcc) (rawCount emptyAddPages : Nat)
    (nextCursor cursor : Option String) (seenCursors : List String) : Bool :=
  (pa.added = 0 && pa.skippedDup > 0 && pa.dupSample ≠ "" &&
      rawCount ≤ pa.skippedOld + pa.skippedRt + pa.skippedDup) ||
    (pa.added = 0 && cutoff.isSome && 9 * rawCount ≤ 10 * pa.skippedOld) ||
    (3 ≤ emptyAddPages) ||
    (cutoff.isSome && !pa.hasNewEnough) ||
    (match nextCursor with
     | none => true
     | some c => c = "" || some c = cursor || seenCursors.contains c)

/-- The outer `while len(all_tweets) < limit` loop, with explicit fuel (the
Python loop terminates because every continuing iteration either adds a tweet
or bumps `empty_add_pages`; the theorems hold for every fuel). -/
def sweepLoop (fetch : FetchOracle) (limit : Nat) (cutoff : Option Int)
    (includeRetweets : Bool) : Nat → SweepState → List Tweet
  | 0, s => s.allTweets
  | fuel + 1, s =>
    if ¬(s.allTweets.length < limit) then s.allTweets
    else
      if ((fetch (s.page + 1) (min 20 (limit - s.allTweets.length)) s.cursor).1).isEmpty
        then s.allTweets
      else
        if sweepStops cutoff
            (processPage cutoff includeRetweets limit
              ((fetch (s.page + 1) (min 20 (limit - s.allTweets.length)) s.cursor).1)
              { seen := s.seenIds, acc := s.allTweets, hasNewEnough := false,
                skippedOld := 0, skippedRt := 0, skippedDup := 0, added := 0,
                dupSample := "" })
            ((fetch (s.page + 1) (min 20 (limit - s.allTweets.length)) s.cursor).1).length
            (if (processPage cutoff includeRetweets limit
                  ((fetch (s.page + 1) (min 20 (limit - s.allTweets.length)) s.cursor).1)
                  { seen := s.seenIds, acc := s.allTweets, hasNewEnough := false,
                    skippedOld := 0, skippedRt := 0, skippedDup := 0, added := 0,
                    dupSample := "" }).added = 0 then s.emptyAddPages + 1 else 0)
            ((fetch (s.page + 1) (min 20 (limit - s.allTweets.length)) s.cursor).2)
            s.cursor s.seenCursors then
          (processPage cutoff includeRetweets limit
            ((fetch (s.page + 1) (min 20 (limit - s.allTweets.length)) s.cursor).1)
            { seen := s.seenIds, acc := s.allTweets, hasNewEnough := false,
              skippedOld := 0, skippedRt := 0, skippedDup := 0, added := 0,
              dupSample := "" }).acc
        else
          sweepLoop fetch limit cutoff includeRetweets fuel
            { allTweets :=
                (processPage cutoff includeRetweets limit
                  ((fetch (s.page + 1) (min 20 (limit - s.allTweets.length)) s.cursor).1)
                  { seen := s.seenIds, acc := s.allTweets, hasNewEnough := false,
                    skippedOld := 0, skippedRt := 0, skippedDup := 0, added := 0,
                    dupSample := "" }).acc,
              seenIds :=
                (processPage cutoff includeRetweets limit
                  ((fetch (s.page + 1) (min 20 (limit - s.allTweets.length)) s.cursor).1)
                  { seen := s.seenIds, acc := s.allTweets, hasNewEnough := false,
                    skippedOld := 0, skippedRt := 0, skippedDup := 0, added := 0,
                    dupSample := "" }).seen,
              seenCursors :=
                (((fetch (s.page + 1) (min 20 (limit - s.allTweets.length)) s.cursor).2).getD "")
                  :: s.seenCursors,
              cursor := (fetch (s.page + 1) (min 20 (limit - s.allTweets.length)) s.cursor).2,
              emptyAddPages :=
                if (processPage cutoff includeRetweets limit
                    ((fetch (s.page + 1) (min 20 (limit - s.allTweets.length)) s.cursor).1)
                    { seen := s.seenIds, acc := s.allTweets, hasNewEnough := false,
                      skippedOld := 0, skippedRt := 0, skippedDup := 0, added := 0,
                      dupSample := "" }).added = 0 then s.emptyAddPages + 1 else 0,
              page := s.page + 1 }

/-- `XClient.get_user_tweets_all`. -/
def getUserTweetsAll (fetch : FetchOracle) (limit : Nat) (cutoff : Option Int)
    (includeRetweets : Bool) (fuel : Nat) : List Tweet :=
  sweepLoop fetch limit cutoff includeRetweets fuel
    { allTweets := [], seenIds := [], seenCursors := [], cursor := none,
      emptyAddPages := 0, page := 0 }

end ProdScout

namespace ProdScout

/-! ## `x_scraper/account_pool.py`: the credential pool

Timestamps (`time.time()`) are `Nat`; every pool operation that reads the
clock takes the current time as an argument. -/

/-- `account_pool.AccountState`. -/
structure AccountState where
  auth_token : String := ""
  ct0 : String := ""
  index : Nat := 0
  request_count : Nat := 0
  cooldown_until : Nat := 0
  is_dead : Bool := false
  last_error : String := ""
  deriving Repr, DecidableEq

/-- `AccountState.is_available` at clock value `now`
(`not dead and not (cooldown_until > now)`). -/
def isAvailable (a : AccountState) (now : Nat) : Bool :=
  !a.is_dead && !(decide (now < a.cooldown_until))

/-- `AccountState.cooldown_remaining` at clock value `now`. -/
def cooldownRemaining (a : AccountState) (now : Nat) : Nat :=
  a.cooldown_until - now

/-- `account_pool.AccountPool` (the credentials list plus the round-robin
index). -/
structure AccountPool where
  accounts : List AccountState
  currentIndex : Nat
  deriving Repr

/-- The default 15 minute cooldown (`DEFAULT_COOLDOWN_SECONDS`). -/
def defaultCooldownSeconds : Nat := 900

/-- The `for _ in range(total)` loop of `AccountPool.get_next`: scan at most
`k` slots, advancing the round-robin index, returning the first available
account with its `request_count` bumped (in-place list mutation is modelled by
`List.set`). -/
def getNextGo (now : Nat) : Nat → AccountPool → Option AccountState × AccountPool
  | 0, p => (none, p)
  | k + 1, p =>
    let total := p.accounts.length
    match p.accounts.get? p.currentIndex with
    | none => (none, p)
    | some a =>
      let idx := p.currentIndex
      let p' := { p with currentIndex := (p.currentIndex + 1) % total }
      if isAvailable a now then
        let a' := { a with request_count := a.request_count + 1 }
        (some a', { p' with accounts := p'.accounts.set idx a' })
      else
        getNextGo now k p'

/-- `AccountPool.get_next`. -/
def getNext (p : AccountPool) (now : Nat) : Option AccountState × AccountPool :=
  getNextGo now p.accounts.length p

/-- `AccountPool.mark_rate_limited` (by account index; the Python code mutates
the `AccountState` object handed out by `get_next`). -/
def markRateLimited (p : AccountPool) (idx : Nat) (now : Nat)
    (cooldownSeconds : Option Nat) : AccountPool :=
  let cd := cooldownSeconds.getD defaultCooldownSeconds
  { p with accounts := p.accounts.map fun a =>
      if a.index = idx then
        { a with cooldown_until := now + cd,
                 last_error := "Rate limited, cooldown " ++ toString cd ++ "s" }
      else a }

/-- `AccountPool.mark_dead`. -/
def markDead (p : AccountPool) (idx : Nat) (reason : String) : AccountPool :=
  { p with accounts := p.accounts.map fun a =>
      if a.index = idx then
        { a with is_dead := true,
                 last_error := if reason = "" then "Account marked as dead" else reason }
      else a }

/-- One operation against the shared pool. -/
inductive PoolOp where
  | opGetNext (now : Nat)
  | opRateLimit (idx : Nat) (now : Nat) (cooldownSeconds : Option Nat)
  | opMarkDead (idx : Nat) (reason : String)
  deriving Repr

/-- Run a sequence of pool operations, recording for every `get_next` call
the clock value it saw and the account it returned. -/
def runOps (p : AccountPool) : List PoolOp → AccountPool × List (Nat × Option AccountState)
  | [] => (p, [])
  | op :: rest =>
    match op with
    | .opGetNext now =>
      ((runOps (getNext p now).2 rest).1,
        (now, (getNext p now).1) :: (runOps (getNext p now).2 rest).2)
    | .opRateLimit idx now cd => runOps (markRateLimited p idx now cd) rest
    | .opMarkDead idx reason => runOps (markDead p idx reason) rest

/-- `AccountPool.wait_for_available`, with the clock advanced explicitly by
each `time.sleep(wait_time)`.  Returns the result and the number of sleeps
performed. -/
def waitForAvailable (p : AccountPool) (deadline : Nat) :
    Nat → Nat → Option AccountState × Nat
  | 0, _ => (none, 0)
  | fuel + 1, now =>
    if now < deadline then
      match (getNext p now).1 with
      | some a => (some a, 0)
      | none =>
        let p' := (getNext p now).2
        if p'.accounts.all (·.is_dead) then (none, 0)
        else
          let waits := (p'.accounts.filter
            (fun a => !a.is_dead && cooldownRemaining a now > 0)).map
              (fun a => cooldownRemaining a now)
          let minWait := (waits.min?).getD 1
          let waitTime := min (min (minWait + 1) (deadline - now)) 60
          if waitTime = 0 then (none, 0)
          else
            ((waitForAvailable p' deadline fuel (now + waitTime)).1,
              (waitForAvailable p' deadline fuel (now + waitTime)).2 + 1)
    else (none, 0)

end ProdScout

namespace ProdScout

/-! ## `AccountPool.from_env_file`: the environment credential file parser -/

/-- The key recognised on one line of the env file: `none` when the line is
skipped (blank, comment, or without `=`), otherwise the stripped text before
the first `=` (`line.partition('=')`, `key.strip()`). -/
def envKey (line : String) : Option String :=
  let l := pyStrip line.data
  if l.isEmpty || pyStartsWith l "#".data || !(l.contains '=') then none
  else some ⟨pyStrip (l.takeWhile (fun c => c ≠ '='))⟩

/-- The value carried by one line: text after the first `=`, then
`.strip().strip('"').strip("'")`. -/
def envVal (line : String) : String :=
  let l := pyStrip line.data
  let key := l.takeWhile (fun c => c ≠ '=')
  ⟨pyStripSet '\'' (pyStripSet '"' (pyStrip (l.drop (key.length + 1))))⟩

/-- The body of the `for line in f` loop of `from_env_file`, acting on the
`(auth_token, ct0)` pair. -/
def envStep (st : String × String) (line : String) : String × String :=
  match envKey line with
  | none => st
  | some k =>
    if k = "TWITTER_AUTH_TOKEN" then (envVal line, st.2)
    else if k = "TWITTER_CT0" || k = "XCSRF_TOKEN" then (st.1, envVal line)
    else st

/-- The whole loop of `from_env_file` over the file's lines. -/
def envFold (st : String × String) (lines : List String) : String × String :=
  lines.foldl envStep st

/-- `AccountPool.from_env_file` (given the file's lines): `none` models the
`ValueError` when either token is missing, otherwise the single credential
pair handed to the pool constructor. -/
def fromEnvFile (lines : List String) : Option (String × String) :=
  let (auth, ct0) := envFold ("", "") lines
  if auth = "" || ct0 = "" then none else some (auth, ct0)

end ProdScout

namespace ProdScout

/-! ## The Organize stage (`native_scout` and `daft_scout` `llm_organizer.py`)

`json.loads` is a library call and is modelled as a parameter
`parse : String → Option Json` (`none` = `JSONDecodeError`); the LLM endpoint
is an oracle `resp : attempt-number → LlmCall`. -/

/-- A parsed JSON value. -/
inductive Json where
  | null
  | bool (b : Bool)
  | num (n : Int)
  | str (s : String)
  | arr (elems : List Json)
  | obj (fields : List (String × Json))

/-- Python truthiness of a JSON-decoded value. -/
def jsonTruthy : Json → Bool
  | .null => false
  | .bool b => b
  | .num n => n != 0
  | .str s => s != ""
  | .arr l => !l.isEmpty
  | .obj l => !l.isEmpty

/-- Python `dict[key] = v` on a JSON object's field list. -/
def objSet (fs : List (String × Json)) (k : String) (v : Json) : List (String × Json) :=
  if fs.any (fun p => p.1 = k) then
    fs.map (fun p => if p.1 = k then (k, v) else p)
  else fs ++ [(k, v)]

/-- Python `dict.get(key)` on a JSON object's field list. -/
def objGet (fs : List (String × Json)) (k : String) : Option Json :=
  (fs.find? (fun p => p.1 = k)).map (·.2)

/-- The enriched-post fields the organize stage copies into its result. -/
structure EnrichedPost where
  title : String := ""
  date : String := ""
  link : String := ""
  source_name : String := ""
  source_type : String := ""
  content : String := ""
  extra_content : String := ""
  extra_urls : List String := []
  deriving Repr, DecidableEq

/-- `native_scout.organize_single_post` after a reply text was obtained:
`json.loads`, then the base fields are merged in.  `none` models both the
`JSONDecodeError → return None` branch and the `TypeError` a non-object reply
raises on `result['date'] = ...` (caught by `_worker_loop`, which drops the
item).  Note: there is no `skip` check on this path. -/
def nativeAfterParse (parsed : Option Json) (post : EnrichedPost) : Option Json :=
  match parsed with
  | none => none
  | some (.obj fs) =>
    let fs := objSet fs "date" (.str post.date)
    let fs := objSet fs "link" (.str post.link)
    let fs := objSet fs "source_name" (.str post.source_name)
    let fs := objSet fs "source_type" (.str post.source_type)
    let fs := objSet fs "extra_content" (.str post.extra_content)
    let fs := objSet fs "extra_urls" (.arr (post.extra_urls.map .str))
    some (.obj fs)
  | some _ => none

/-- `OrganizerStage._worker_loop`'s forwarding decision (`if result:`):
`true` iff the item is put on the organize (write) queue. -/
def nativeWorkerForwards (parsed : Option Json) (post : EnrichedPost) : Bool :=
  match nativeAfterParse parsed post with
  | some j => jsonTruthy j
  | none => false

/-- `daft_scout.OrganizeUDF._organize_single_post` after a reply text was
obtained: parse, then `if result.get("skip"): return None`.  A non-object
reply raises on `.get` and the wrapping `__call__` maps it to `None`. -/
def daftAfterParse (parsed : Option Json) : Option Json :=
  match parsed with
  | none => none
  | some (.obj fs) =>
    match objGet fs "skip" with
    | some v => if jsonTruthy v then none else some (.obj fs)
    | none => some (.obj fs)
  | some _ => none

/-- One LLM chat call: an HTTP/SDK exception, or a reply text (`none`
content is modelled as the empty reply, which the code treats identically). -/
inductive LlmCall where
  | failure
  | reply (s : String)

/-- The outcome of the `for attempt in range(max_retries + 1)` loop:
a non-blank stripped reply text, giving up after empty replies, or the final
re-`raise`.  Each result records the attempt index it arose at and the number
of `time.sleep(retry_delay)` calls performed before it. -/
inductive RetryResult where
  | text (s : String) (attempt sleeps : Nat)
  | emptyGiveUp (attempt sleeps : Nat)
  | raised (attempt sleeps : Nat)
  deriving Repr, DecidableEq

/-- The retry loop body, by fuel (the Python loop runs at most
`max_retries + 1` iterations). -/
def retryGo (resp : Nat → LlmCall) (maxRetries : Nat) :
    Nat → Nat → Nat → RetryResult
  | 0, a, sleeps => .emptyGiveUp a sleeps
  | fuel + 1, a, sleeps =>
    match resp a with
    | .failure =>
      if a < maxRetries then retryGo resp maxRetries fuel (a + 1) (sleeps + 1)
      else .raised a sleeps
    | .reply s =>
      if pyStripStr s = "" then
        if a < maxRetries then retryGo resp maxRetries fuel (a + 1) (sleeps + 1)
        else .emptyGiveUp a sleeps
      else .text (pyStripStr s) a sleeps

/-- The complete LLM call retry loop (identical in
`native_scout.organize_single_post` and
`daft_scout.OrganizeUDF._organize_single_post`). -/
def callRetryLoop (resp : Nat → LlmCall) (maxRetries : Nat) : RetryResult :=
  retryGo resp maxRetries (maxRetries + 1) 0 0

/-- What becomes of one item in the organize stage. -/
inductive OrganizeOutcome where
  | dropped
  | forwarded (j : Json)

/-- `native_scout.organize_single_post` combined with `_worker_loop`'s
handling of its result (a raised final failure is caught there and the item
is dropped).  The second component counts the `time.sleep(retry_delay)`
backoffs performed. -/
def organizeSinglePost (parse : String → Option Json) (resp : Nat → LlmCall)
    (maxRetries : Nat) (post : EnrichedPost) : OrganizeOutcome × Nat :=
  match callRetryLoop resp maxRetries with
  | .raised _ sleeps => (.dropped, sleeps)
  | .emptyGiveUp _ sleeps => (.dropped, sleeps)
  | .text t _ sleeps =>
    match nativeAfterParse (parse t) post with
    | none => (.dropped, sleeps)
    | some j => if jsonTruthy j then (.forwarded j, sleeps) else (.dropped, sleeps)

/-- The daft pipeline's counterpart
(`OrganizeUDF.__call__` ∘ `_organize_single_post`). -/
def daftOrganizePost (parse : String → Option Json) (resp : Nat → LlmCall)
    (maxRetries : Nat) : OrganizeOutcome × Nat :=
  match callRetryLoop resp maxRetries with
  | .raised _ sleeps => (.dropped, sleeps)
  | .emptyGiveUp _ sleeps => (.dropped, sleeps)
  | .text t _ sleeps =>
    match daftAfterParse (parse t) with
    | none => (.dropped, sleeps)
    | some j => if jsonTruthy j then (.forwarded j, sleeps) else (.dropped, sleeps)

end ProdScout

namespace ProdScout

/-! ## The Write stage (`native_scout/stages/result_writer.py`)

`hashlib.md5(...).hexdigest()` is a library call, modelled as a parameter
`md5hex : String → String`.  File-system writes are modelled as the list of
paths written; the no-I/O-failure run is modelled (per-file I/O errors only
remove items from every counter at once and are logged). -/

/-- The post dictionary as the writer reads it (`result.get(k, default)`;
`none` = key absent). -/
structure OrgPost where
  domain : Option String := none
  event : Option String := none
  date : Option String := none
  quality_score : Option Int := none
  quality_reason : Option String := none
  category : Option String := none
  source_name : Option String := none
  source_type : Option String := none
  link : Option String := none
  primary_entity : Option String := none
  deriving Repr, DecidableEq

/-- `WriterStage._get_quality_tier`. -/
def qualityTier (score : Int) : String :=
  if 4 ≤ score then "high"
  else if 2 ≤ score then "pending"
  else "excluded"

/-- The domain-directory sanitizer in `_get_domain_info`
(`c if c.isalnum() or c in ('-', '_') else '_'`). -/
def sanitizeDomainComponent (s : String) : String :=
  ⟨s.data.map (fun c => if c.isAlphanum || c = '-' || c = '_' then c else '_')⟩

/-- The entity-directory sanitizer in `_write_to_entity_view`
(also keeps spaces, then `.strip()`). -/
def sanitizeEntityComponent (s : String) : String :=
  ⟨pyStrip (s.data.map
    (fun c => if c.isAlphanum || c = '-' || c = '_' || c = ' ' then c else '_'))⟩

/-- `hashlib.md5(link).hexdigest()[:6] if link else "nolink"`. -/
def linkHash (md5hex : String → String) (link : String) : String :=
  if link ≠ "" then ⟨(md5hex link).data.take 6⟩ else "nolink"

/-- The markdown filename built in `_write_post_file`:
`f"{source_name}_{date_str}_{unique_suffix}.md"`. -/
def writeFilename (md5hex : String → String) (p : OrgPost) : String :=
  (p.source_name.getD "Unknown") ++ "_" ++ (p.date.getD "Unknown date") ++ "_"
    ++ linkHash md5hex (p.link.getD "") ++ ".md"

/-- The full path `_write_post_file` writes to:
`os.path.join(output_dir, "By-Domain", safe_domain, tier, filename)`. -/
def writePostPath (md5hex : String → String) (outputDir : String) (p : OrgPost) : String :=
  outputDir ++ "/By-Domain/" ++ sanitizeDomainComponent (p.domain.getD "Other")
    ++ "/" ++ qualityTier (p.quality_score.getD 3) ++ "/" ++ writeFilename md5hex p

/-- Entity resolution in `_write_post_file`: the configured
source-name → canonical-entity index first (keys lowercased), then the LLM's
`primary_entity`, then `"Others"`; an empty resolution stays empty. -/
def resolveEntity (sourceToEntity : List (String × String)) (p : OrgPost) : String :=
  let sn := p.source_name.getD "Unknown"
  let fromMap := if sn ≠ "" then sourceToEntity.lookup (pyLower sn) else none
  match fromMap with
  | some e => if e ≠ "" then e else p.primary_entity.getD "Others"
  | none => p.primary_entity.getD "Others"

/-- Per-domain tier counters (`domain_info['high'|'pending'|'excluded']`). -/
structure DomainCounts where
  high : Nat := 0
  pending : Nat := 0
  excluded : Nat := 0
  deriving Repr, DecidableEq

/-- `domain_info[tier] += 1`. -/
def addTier (c : DomainCounts) (tier : String) : DomainCounts :=
  if tier = "high" then { c with high := c.high + 1 }
  else if tier = "pending" then { c with pending := c.pending + 1 }
  else if tier = "excluded" then { c with excluded := c.excluded + 1 }
  else c

/-- Create-if-absent then bump for the `domain_info_map` dictionary (keys are
unique in a Python dict; the first matching entry is the entry). -/
def bumpTier : List (String × DomainCounts) → String → String →
    List (String × DomainCounts)
  | [], domain, tier => [(domain, addTier {} tier)]
  | q :: rest, domain, tier =>
    if q.1 = domain then (q.1, addTier q.2 tier) :: rest
    else q :: bumpTier rest domain tier

/-- `entity_stats[k] = entity_stats.get(k, 0) + 1` on the dictionary. -/
def bumpCount : List (String × Nat) → String → List (String × Nat)
  | [], k => [(k, 1)]
  | q :: rest, k =>
    if q.1 = k then (q.1, q.2 + 1) :: rest
    else q :: bumpCount rest k

/-- A record of one markdown file written: the domain and quality score the
post was written under, and the full path. -/
structure WrittenFile where
  domain : String
  score : Int
  path : String
  deriving Repr, DecidableEq

/-- The writer's mutable state across `_worker_loop`. -/
structure WriterState where
  totalPosts : Nat := 0
  domainTiers : List (String × DomainCounts) := []
  entityStats : List (String × Nat) := []
  written : List WrittenFile := []
  deriving Repr, DecidableEq

/-- One `_write_post_file` call plus the `total_posts += 1` of
`_worker_loop`. -/
def writerStep (cfg : List (String × String)) (md5hex : String → String)
    (outputDir : String) (st : WriterState) (p : OrgPost) : WriterState :=
  let domain := p.domain.getD "Other"
  let score := p.quality_score.getD 3
  let tier := qualityTier score
  let st := { st with
    written := st.written ++ [⟨domain, score, writePostPath md5hex outputDir p⟩]
    domainTiers := bumpTier st.domainTiers domain tier
    totalPosts := st.totalPosts + 1 }
  let entity := resolveEntity cfg p
  if (tier = "high" || tier = "pending") && entity ≠ "" then
    { st with entityStats := bumpCount st.entityStats (sanitizeEntityComponent entity) }
  else st

/-- The writer consuming a whole batch. -/
def runWriter (cfg : List (String × String)) (md5hex : String → String)
    (outputDir : String) (posts : List OrgPost) : WriterState :=
  posts.foldl (writerStep cfg md5hex outputDir) {}

/-- `_finalize_batch`'s quality distribution: sums over the per-domain maps. -/
def totalHigh (st : WriterState) : Nat := (st.domainTiers.map (·.2.high)).sum

/-- Sum of the per-domain `pending` counters. -/
def totalPending (st : WriterState) : Nat := (st.domainTiers.map (·.2.pending)).sum

/-- Sum of the per-domain `excluded` counters. -/
def totalExcluded (st : WriterState) : Nat := (st.domainTiers.map (·.2.excluded)).sum

/-- Sum of the manifest's per-entity counts (`stats.top_entities`). -/
def entityTotal (st : WriterState) : Nat := (st.entityStats.map (·.2)).sum

end ProdScout

namespace ProdScout

/-! ## Spec-side definitions (for refinement comparisons)

These definitions follow the specification's words, to be compared with the
definitions translated from the source. -/

/-- Modelled from the spec: the event component of the output filename —
"Non-alphanumeric characters (except `-` `_`) in `event` are replaced with
`_`; the event component is truncated to 50 characters." -/
def specSafeEvent (event : String) : String :=
  ⟨(event.data.map (fun c => if c.isAlphanum || c = '-' || c = '_' then c else '_')).take 50⟩

/-- Modelled from the spec: the filename shape the claim asserts,
`<safe_event>_<date>_<link_hash>.md`. -/
def claimedFilename (md5hex : String → String) (event date link : String) : String :=
  specSafeEvent event ++ "_" ++ date ++ "_" ++ linkHash md5hex link ++ ".md"

/-- Modelled from the spec: the quality-tier mapping — "score ≥ 4 ⇒ high;
2 ≤ score ≤ 3 ⇒ pending; score ≤ 1 ⇒ excluded" (total on integers). -/
def specTier (score : Int) : String :=
  if 4 ≤ score then "high"
  else if 2 ≤ score ∧ score ≤ 3 then "pending"
  else "excluded"

/-- Modelled from the spec: "`link_hash` is the first 6 hex characters of the
MD5 of the link (or `nolink`)". -/
def specLinkHash (md5hex : String → String) (link : String) : String :=
  if link = "" then "nolink" else ⟨(md5hex link).data.take 6⟩

/-- The path the amended claim C4 asserts, written from the spec's words with
the filename corrected to use the raw `source_name`. -/
def amendedPath (md5hex : String → String) (outputDir : String) (p : OrgPost) : String :=
  outputDir ++ "/By-Domain/" ++ sanitizeDomainComponent (p.domain.getD "Other")
    ++ "/" ++ specTier (p.quality_score.getD 3) ++ "/"
    ++ (p.source_name.getD "Unknown") ++ "_" ++ (p.date.getD "Unknown date") ++ "_"
    ++ specLinkHash md5hex (p.link.getD "") ++ ".md"

/-- Modelled from the spec: the closed domain set D of §3. -/
def closedSetD : List String :=
  ["llm-tech-products", "data-platforms", "ai-platforms", "agent-platforms",
   "code-agents", "data-agents", "vertical-agents", "embodied-ai", "other"]

/-- A stand-in MD5 hex digest for concrete counterexamples (`hashlib.md5` is
outside the repository; the disputed filename parts do not depend on it). -/
def md5stub : String → String := fun _ => "9e107d9d972f"

/-- Whether an organize-stage outcome was forwarded downstream. -/
def isForwarded : OrganizeOutcome → Bool
  | .dropped => false
  | .forwarded _ => true

end ProdScout

namespace ProdScout

/-! ## Claim C3 — the `skip` reply in the organize stage -/

/-- The parsed form of the LLM reply `{"skip": true}`. -/
def skipReply : Json := .obj [("skip", .bool true)]

/-- A `json.loads` oracle defined on the reply text `{"skip": true}`. -/
def skipParse : String → Option Json :=
  fun s => if s = "\x7b\"skip\": true\x7d" then some skipReply else none

/-- An LLM oracle that replies `{"skip": true}` on every attempt. -/
def skipResp : Nat → LlmCall := fun _ => .reply "\x7b\"skip\": true\x7d"

/-- C3 (code bug): when the LLM reply parses as `{"skip": true}`, the claim
(and `daft_scout`'s and `crawler`'s implementations, and the native worker
loop's own comment "if None returned, it means skip") requires the item to be
dropped — but `native_scout.organize_single_post` has no `skip` check, so the
native organize stage forwards the item to the write queue, while the daft
organize stage drops it. -/
theorem C3_skip_reply_forwarded :
    nativeWorkerForwards (some skipReply) {} = true ∧
    isForwarded (organizeSinglePost skipParse skipResp 3 {}).1 = true ∧
    isForwarded (daftOrganizePost skipParse skipResp 3).1 = false := by
  refine ⟨rfl, rfl, rfl⟩

/-! ## Claim C4 — the write-stage file path -/

/-- The concrete post for the C4 counterexample. -/
def c4post : OrgPost :=
  { domain := some "llm-tech-products", event := some "My Event!",
    date := some "2026-01-01", quality_score := some 5,
    source_name := some "src", link := some "https://e.com/a" }

/-- C4 counterexample: the filename written by `_write_post_file` is built
from `source_name`, not from the sanitized, truncated event, so it differs
from the claimed `<safe_event>_<date>_<link_hash>.md` on a post whose event
is "My Event!" and whose source is "src". -/
theorem C4_filename_counterexample :
    writeFilename md5stub c4post = "src_2026-01-01_9e107d.md" ∧
    claimedFilename md5stub "My Event!" "2026-01-01" "https://e.com/a"
      = "My_Event__2026-01-01_9e107d.md" ∧
    writeFilename md5stub c4post
      ≠ claimedFilename md5stub "My Event!" "2026-01-01" "https://e.com/a" := by
  refine ⟨rfl, by decide, by decide⟩

/-- The quality tier of the code agrees with the spec's tier table on every
integer score. -/
theorem qualityTier_eq_specTier (s : Int) : qualityTier s = specTier s := by
  unfold qualityTier specTier
  by_cases h4 : 4 ≤ s
  · simp [h4]
  · by_cases h2 : 2 ≤ s
    · have h3 : s ≤ 3 := by omega
      simp [h4, h2, h3]
    · have : ¬(2 ≤ s ∧ s ≤ 3) := by omega
      simp [h4, h2, this]

/-- The code's link hash agrees with the spec's description. -/
theorem linkHash_eq_specLinkHash (md5hex : String → String) (link : String) :
    linkHash md5hex link = specLinkHash md5hex link := by
  unfold linkHash specLinkHash
  by_cases h : link = "" <;> simp [h]

/-- C4 (amended): each post's markdown file is written at
`<out>/By-Domain/<safe_domain>/<tier>/<source_name>_<date>_<link_hash>.md`
— tier per the score thresholds and `link_hash` the first 6 hex characters of
the MD5 of the link (or `nolink` for an empty link), but with the filename
starting with the raw `source_name` (no event component, no sanitization or
50-character truncation of filename parts). -/
theorem C4_write_path_amended (md5hex : String → String) (outputDir : String)
    (p : OrgPost) :
    writePostPath md5hex outputDir p = amendedPath md5hex outputDir p := by
  unfold writePostPath amendedPath writeFilename
  rw [qualityTier_eq_specTier, linkHash_eq_specLinkHash]
  simp [String.append_assoc]

end ProdScout

namespace ProdScout

/-! ## Claim C5 — closed sets and score range at write time -/

/-- The concrete post for the C5 counterexample: a domain outside D and a
score outside [1,5], straight from the (unvalidated) LLM output. -/
def c5post : OrgPost :=
  { domain := some "banana", quality_score := some 7,
    source_name := some "s", link := some "x" }

/-- C5 counterexample: the writer writes a post whose domain is not in the
closed set D and whose quality score is outside [1,5]; no coercion to
"other" happens anywhere between parsing the LLM reply and writing. -/
theorem C5_closed_set_counterexample :
    (runWriter [] md5stub "out" [c5post]).written
      = [⟨"banana", 7, "out/By-Domain/banana/high/s_Unknown date_9e107d.md"⟩] ∧
    closedSetD.contains "banana" = false ∧
    ¬(1 ≤ (7 : Int) ∧ (7 : Int) ≤ 5) := by
  refine ⟨rfl, rfl, by omega⟩

/-- The `written` trace of one writer step. -/
theorem writerStep_written (cfg : List (String × String)) (md5hex : String → String)
    (outputDir : String) (st : WriterState) (p : OrgPost) :
    (writerStep cfg md5hex outputDir st p).written
      = st.written ++ [⟨p.domain.getD "Other", p.quality_score.getD 3,
          writePostPath md5hex outputDir p⟩] := by
  unfold writerStep
  dsimp only
  split <;> rfl

/-- The `written` trace of a writer run from any starting state. -/
theorem runWriter_written_aux (cfg : List (String × String)) (md5hex : String → String)
    (outputDir : String) (posts : List OrgPost) (st : WriterState) :
    (posts.foldl (writerStep cfg md5hex outputDir) st).written
      = st.written ++ posts.map (fun p =>
          ⟨p.domain.getD "Other", p.quality_score.getD 3,
            writePostPath md5hex outputDir p⟩) := by
  induction posts generalizing st with
  | nil => simp
  | cons p rest ih =>
    simp only [List.foldl_cons, List.map_cons]
    rw [ih, writerStep_written]
    simp

/-- C5 (amended): the writer does not validate the LLM output — every post is
written exactly with the domain and quality score the organize stage handed
over (a missing domain defaults to "Other", a missing score to 3); membership
of the domain in the closed set D and of the score in [1,5] is not enforced
and out-of-set values are not coerced. -/
theorem C5_written_unvalidated (cfg : List (String × String))
    (md5hex : String → String) (outputDir : String) (posts : List OrgPost) :
    (runWriter cfg md5hex outputDir posts).written
      = posts.map (fun p => ⟨p.domain.getD "Other", p.quality_score.getD 3,
          writePostPath md5hex outputDir p⟩) := by
  unfold runWriter
  rw [runWriter_written_aux]
  rfl

end ProdScout

namespace ProdScout

/-! ## Claim C6 — manifest statistics -/

/-- Whether the writer bumps an entity counter for a post: accepted tier and
a nonempty resolved entity. -/
def countsTowardEntity (cfg : List (String × String)) (p : OrgPost) : Bool :=
  let tier := qualityTier (p.quality_score.getD 3)
  (tier = "high" || tier = "pending") && resolveEntity cfg p ≠ ""

/-- `addTier` on the `high` counter. -/
theorem addTier_high (c : DomainCounts) (t : String) :
    (addTier c t).high = c.high + (if t = "high" then 1 else 0) := by
  unfold addTier
  by_cases h1 : t = "high"
  · simp [h1]
  · by_cases h2 : t = "pending" <;> by_cases h3 : t = "excluded" <;>
      simp [h1, h2, h3]

/-- `addTier` on the `pending` counter. -/
theorem addTier_pending (c : DomainCounts) (t : String) :
    (addTier c t).pending = c.pending + (if t = "pending" then 1 else 0) := by
  unfold addTier
  by_cases h1 : t = "high"
  · have : t ≠ "pending" := by simp [h1]
    simp [h1, this]
  · by_cases h2 : t = "pending" <;> by_cases h3 : t = "excluded" <;>
      simp [h1, h2, h3]

/-- `addTier` on the `excluded` counter. -/
theorem addTier_excluded (c : DomainCounts) (t : String) :
    (addTier c t).excluded = c.excluded + (if t = "excluded" then 1 else 0) := by
  unfold addTier
  by_cases h1 : t = "high"
  · have : t ≠ "excluded" := by simp [h1]
    simp [h1, this]
  · by_cases h2 : t = "pending"
    · have : t ≠ "excluded" := by simp [h2]
      simp [h1, h2, this]
    · by_cases h3 : t = "excluded" <;> simp [h1, h2, h3]

/-- `bumpTier` adds to the `high` column sum exactly when the tier is
`high`. -/
theorem bumpTier_high (m : List (String × DomainCounts)) (d t : String) :
    ((bumpTier m d t).map (·.2.high)).sum
      = (m.map (·.2.high)).sum + (if t = "high" then 1 else 0) := by
  induction m with
  | nil => simp [bumpTier, addTier_high]
  | cons q rest ih =>
    unfold bumpTier
    by_cases h : q.1 = d
    · simp [h, addTier_high]
      omega
    · simp [h, ih]
      omega

/-- `bumpTier` on the `pending` column sum. -/
theorem bumpTier_pending (m : List (String × DomainCounts)) (d t : String) :
    ((bumpTier m d t).map (·.2.pending)).sum
      = (m.map (·.2.pending)).sum + (if t = "pending" then 1 else 0) := by
  induction m with
  | nil => simp [bumpTier, addTier_pending]
  | cons q rest ih =>
    unfold bumpTier
    by_cases h : q.1 = d
    · simp [h, addTier_pending]
      omega
    · simp [h, ih]
      omega

/-- `bumpTier` on the `excluded` column sum. -/
theorem bumpTier_excluded (m : List (String × DomainCounts)) (d t : String) :
    ((bumpTier m d t).map (·.2.excluded)).sum
      = (m.map (·.2.excluded)).sum + (if t = "excluded" then 1 else 0) := by
  induction m with
  | nil => simp [bumpTier, addTier_excluded]
  | cons q rest ih =>
    unfold bumpTier
    by_cases h : q.1 = d
    · simp [h, addTier_excluded]
      omega
    · simp [h, ih]
      omega

/-- `bumpCount` adds exactly one to the counter sum. -/
theorem bumpCount_sum (m : List (String × Nat)) (k : String) :
    ((bumpCount m k).map (·.2)).sum = (m.map (·.2)).sum + 1 := by
  induction m with
  | nil => simp [bumpCount]
  | cons q rest ih =>
    unfold bumpCount
    by_cases h : q.1 = k
    · simp [h]
      omega
    · simp [h, ih]
      omega

/-- The quality tier is always one of the three tier names. -/
theorem qualityTier_cases (s : Int) :
    qualityTier s = "high" ∨ qualityTier s = "pending" ∨ qualityTier s = "excluded" := by
  unfold qualityTier
  split
  · exact Or.inl rfl
  · split
    · exact Or.inr (Or.inl rfl)
    · exact Or.inr (Or.inr rfl)

/-- One writer step bumps `total_posts` and the tier distribution by exactly
one, and the entity counters by one exactly on accepted posts with a
nonempty resolved entity. -/
theorem writerStep_stats (cfg : List (String × String)) (md5hex : String → String)
    (outputDir : String) (st : WriterState) (p : OrgPost) :
    (writerStep cfg md5hex outputDir st p).totalPosts = st.totalPosts + 1 ∧
    totalHigh (writerStep cfg md5hex outputDir st p)
        + totalPending (writerStep cfg md5hex outputDir st p)
        + totalExcluded (writerStep cfg md5hex outputDir st p)
      = totalHigh st + totalPending st + totalExcluded st + 1 ∧
    entityTotal (writerStep cfg md5hex outputDir st p)
      = entityTotal st + (if countsTowardEntity cfg p then 1 else 0) := by
  unfold writerStep countsTowardEntity
  dsimp only
  have hsum : ∀ (m : List (String × DomainCounts)) (d : String) (s : Int),
      ((bumpTier m d (qualityTier s)).map (·.2.high)).sum
          + ((bumpTier m d (qualityTier s)).map (·.2.pending)).sum
          + ((bumpTier m d (qualityTier s)).map (·.2.excluded)).sum
        = (m.map (·.2.high)).sum + (m.map (·.2.pending)).sum
          + (m.map (·.2.excluded)).sum + 1 := by
    intro m d s
    rw [bumpTier_high, bumpTier_pending, bumpTier_excluded]
    rcases qualityTier_cases s with h | h | h <;> rw [h] <;> simp <;> omega
  split
  · next hcond =>
    refine ⟨rfl, ?_, ?_⟩
    · unfold totalHigh totalPending totalExcluded
      exact hsum st.domainTiers (p.domain.getD "Other") (p.quality_score.getD 3)
    · unfold entityTotal
      dsimp only
      rw [bumpCount_sum]
  · next hcond =>
    refine ⟨rfl, ?_, ?_⟩
    · unfold totalHigh totalPending totalExcluded
      exact hsum st.domainTiers (p.domain.getD "Other") (p.quality_score.getD 3)
    · unfold entityTotal
      simp

/-- Writer-run statistics relative to an arbitrary starting state. -/
theorem runWriter_stats_aux (cfg : List (String × String)) (md5hex : String → String)
    (outputDir : String) (posts : List OrgPost) (st : WriterState) :
    (posts.foldl (writerStep cfg md5hex outputDir) st).totalPosts
        = st.totalPosts + posts.length ∧
    totalHigh (posts.foldl (writerStep cfg md5hex outputDir) st)
        + totalPending (posts.foldl (writerStep cfg md5hex outputDir) st)
        + totalExcluded (posts.foldl (writerStep cfg md5hex outputDir) st)
      = totalHigh st + totalPending st + totalExcluded st + posts.length ∧
    entityTotal (posts.foldl (writerStep cfg md5hex outputDir) st)
      = entityTotal st + (posts.filter (countsTowardEntity cfg)).length := by
  induction posts generalizing st with
  | nil => simp
  | cons p rest ih =>
    simp only [List.foldl_cons, List.length_cons, List.filter_cons]
    obtain ⟨h1, h2, h3⟩ := writerStep_stats cfg md5hex outputDir st p
    obtain ⟨g1, g2, g3⟩ := ih (writerStep cfg md5hex outputDir st p)
    refine ⟨?_, ?_, ?_⟩
    · rw [g1, h1]
      omega
    · rw [g2, h2]
      omega
    · rw [g3, h3]
      by_cases hc : countsTowardEntity cfg p
      · simp [hc]
        omega
      · simp [hc]

/-- C6 (amended): in the batch manifest, `stats.total_posts` always equals
the sum of the three `quality_distribution` counters; the per-entity counts
sum to the number of accepted (high/pending) posts with a nonempty resolved
entity; and this entity sum equals `total_posts` exactly when every post in
the batch is accepted and resolves to a nonempty entity (in particular it
falls short whenever an excluded post exists). -/
theorem C6_manifest_stats_amended (cfg : List (String × String))
    (md5hex : String → String) (outputDir : String) (posts : List OrgPost) :
    (runWriter cfg md5hex outputDir posts).totalPosts
        = totalHigh (runWriter cfg md5hex outputDir posts)
          + totalPending (runWriter cfg md5hex outputDir posts)
          + totalExcluded (runWriter cfg md5hex outputDir posts) ∧
    entityTotal (runWriter cfg md5hex outputDir posts)
        = (posts.filter (countsTowardEntity cfg)).length ∧
    (posts.all (countsTowardEntity cfg) = true →
      (runWriter cfg md5hex outputDir posts).totalPosts
        = entityTotal (runWriter cfg md5hex outputDir posts)) := by
  obtain ⟨h1, h2, h3⟩ := runWriter_stats_aux cfg md5hex outputDir posts {}
  unfold runWriter
  refine ⟨?_, ?_, ?_⟩
  · rw [h1, h2]
    simp [totalHigh, totalPending, totalExcluded, entityTotal, WriterState.totalPosts]
  · rw [h3]
    simp [entityTotal]
  · intro hall
    rw [h1, h3]
    have : posts.filter (countsTowardEntity cfg) = posts :=
      List.filter_eq_self.mpr (by simpa [List.all_eq_true] using hall)
    rw [this]
    simp [entityTotal]

/-- The concrete excluded post for the C6 counterexample. -/
def c6post : OrgPost :=
  { domain := some "D", quality_score := some 1,
    source_name := some "s", primary_entity := some "OpenAI" }

/-- C6 counterexample: a batch with one excluded post has
`total_posts = 1 = Σ quality_distribution` but `Σ entity counts = 0`, so the
claimed equality of `total_posts` with the per-entity sum fails. -/
theorem C6_entity_sum_counterexample :
    (runWriter [] md5stub "out" [c6post]).totalPosts = 1 ∧
    totalHigh (runWriter [] md5stub "out" [c6post])
        + totalPending (runWriter [] md5stub "out" [c6post])
        + totalExcluded (runWriter [] md5stub "out" [c6post]) = 1 ∧
    entityTotal (runWriter [] md5stub "out" [c6post]) = 0 ∧
    (runWriter [] md5stub "out" [c6post]).totalPosts
      ≠ entityTotal (runWriter [] md5stub "out" [c6post]) := by
  refine ⟨rfl, rfl, rfl, by decide⟩

end ProdScout

namespace ProdScout

/-! ## Claim C7 — organize-stage retry policy -/

/-- The attempts the retry loop retries on: an exception or a blank reply. -/
def isFailOrBlank : LlmCall → Bool
  | .failure => true
  | .reply s => pyStripStr s == ""

/-- If every attempt from `a` through `max_retries` fails or is blank, the
loop (entered with one backoff already recorded per earlier attempt) performs
one further backoff sleep per retry and ends at attempt `max_retries` with a
raise or an empty-giveup, having slept `max_retries` times in total. -/
theorem retryGo_allFail (resp : Nat → LlmCall) (mr : Nat) :
    ∀ (fuel a : Nat), a ≤ mr → fuel = mr + 1 - a →
    (∀ j, a ≤ j → j ≤ mr → isFailOrBlank (resp j) = true) →
    retryGo resp mr fuel a a = .raised mr mr ∨
      retryGo resp mr fuel a a = .emptyGiveUp mr mr := by
  intro fuel
  induction fuel with
  | zero => intro a ha hf _; omega
  | succ fuel ih =>
    intro a ha hf hall
    have hja := hall a le_rfl ha
    simp only [retryGo]
    cases hra : resp a with
    | failure =>
      dsimp only
      by_cases hlt : a < mr
      · rw [if_pos hlt]
        exact ih (a + 1) (by omega) (by omega) (fun j h1 h2 => hall j (by omega) h2)
      · rw [if_neg hlt]
        have : a = mr := by omega
        subst this
        exact Or.inl rfl
    | reply s =>
      rw [hra] at hja
      have hblank : pyStripStr s = "" := by
        simpa [isFailOrBlank] using hja
      dsimp only
      rw [if_pos hblank]
      by_cases hlt : a < mr
      · rw [if_pos hlt]
        exact ih (a + 1) (by omega) (by omega) (fun j h1 h2 => hall j (by omega) h2)
      · rw [if_neg hlt]
        have : a = mr := by omega
        subst this
        exact Or.inr rfl

/-- If the attempts before `a` fail or are blank and attempt `a` yields a
non-blank reply, the loop returns that reply's stripped text at attempt `a`
after exactly `a` backoff sleeps. -/
theorem retryGo_successAt (resp : Nat → LlmCall) (mr : Nat) (a : Nat) (s : String) :
    ∀ (fuel a0 : Nat), a0 ≤ a → a ≤ mr → fuel = mr + 1 - a0 →
    (∀ j, a0 ≤ j → j < a → isFailOrBlank (resp j) = true) →
    resp a = .reply s → ¬(pyStripStr s = "") →
    retryGo resp mr fuel a0 a0 = .text (pyStripStr s) a a := by
  intro fuel
  induction fuel with
  | zero => intro a0 h0 ha hf _ _ _; omega
  | succ fuel ih =>
    intro a0 h0 ha hf hprior hra hs
    simp only [retryGo]
    by_cases heq : a0 = a
    · subst heq
      rw [hra]
      dsimp only
      rw [if_neg hs]
    · have hja := hprior a0 le_rfl (by omega)
      cases hr0 : resp a0 with
      | failure =>
        dsimp only
        rw [if_pos (show a0 < mr by omega)]
        exact ih (a0 + 1) (by omega) ha (by omega)
          (fun j h1 h2 => hprior j (by omega) h2) hra hs
      | reply t =>
        rw [hr0] at hja
        have hblank : pyStripStr t = "" := by
          simpa [isFailOrBlank] using hja
        dsimp only
        rw [if_pos hblank, if_pos (show a0 < mr by omega)]
        exact ih (a0 + 1) (by omega) ha (by omega)
          (fun j h1 h2 => hprior j (by omega) h2) hra hs

/-- C7 (amended): the organize stage retries up to `max_retries` times, with
one backoff sleep per retry, on an empty reply or an HTTP/SDK failure — and
only on those; a non-blank reply ends the loop at once, and if that reply
then fails JSON parsing the item is dropped immediately, with no further
retry (the sleep count stays at the number of earlier empty/failed
attempts). -/
theorem C7_retry_policy_amended :
    (∀ (resp : Nat → LlmCall) (mr : Nat) (parse : String → Option Json)
        (post : EnrichedPost),
      (∀ j, j ≤ mr → isFailOrBlank (resp j) = true) →
      organizeSinglePost parse resp mr post = (.dropped, mr)) ∧
    (∀ (resp : Nat → LlmCall) (mr a : Nat) (s : String),
      a ≤ mr → (∀ j, j < a → isFailOrBlank (resp j) = true) →
      resp a = .reply s → ¬(pyStripStr s = "") →
      callRetryLoop resp mr = .text (pyStripStr s) a a) ∧
    (∀ (resp : Nat → LlmCall) (mr a : Nat) (s : String)
        (parse : String → Option Json) (post : EnrichedPost),
      a ≤ mr → (∀ j, j < a → isFailOrBlank (resp j) = true) →
      resp a = .reply s → ¬(pyStripStr s = "") → parse (pyStripStr s) = none →
      organizeSinglePost parse resp mr post = (.dropped, a)) := by
  have hsucc : ∀ (resp : Nat → LlmCall) (mr a : Nat) (s : String),
      a ≤ mr → (∀ j, j < a → isFailOrBlank (resp j) = true) →
      resp a = .reply s → ¬(pyStripStr s = "") →
      callRetryLoop resp mr = .text (pyStripStr s) a a := by
    intro resp mr a s ha hprior hra hs
    unfold callRetryLoop
    exact retryGo_successAt resp mr a s (mr + 1) 0 (by omega) ha (by omega)
      (fun j _ h2 => hprior j h2) hra hs
  refine ⟨?_, hsucc, ?_⟩
  · intro resp mr parse post hall
    unfold organizeSinglePost callRetryLoop
    rcases retryGo_allFail resp mr (mr + 1) 0 (by omega) (by omega)
        (fun j _ h2 => hall j h2) with h | h <;> rw [h]
  · intro resp mr a s parse post ha hprior hra hs hparse
    unfold organizeSinglePost
    rw [hsucc resp mr a s ha hprior hra hs]
    dsimp only
    rw [hparse]
    rfl

/-- An LLM oracle that replies non-JSON text on every attempt. -/
def nonJsonResp : Nat → LlmCall := fun _ => .reply "not json"

/-- A `json.loads` oracle on which every text fails to parse. -/
def parseNone : String → Option Json := fun _ => none

/-- C7 counterexample: a first-attempt reply that fails JSON parsing is
dropped at attempt 0 with zero backoff sleeps — no retry happens for
non-JSON content, contradicting the claimed "non-JSON content is retried up
to 3 times with a 3-second backoff". -/
theorem C7_nonjson_no_retry_counterexample :
    callRetryLoop nonJsonResp 3 = .text "not json" 0 0 ∧
    organizeSinglePost parseNone nonJsonResp 3 {} = (.dropped, 0) := by
  exact ⟨rfl, rfl⟩

/-- An LLM oracle failing on attempts 0 and 1, replying on attempt 2. -/
def failThenReply : Nat → LlmCall :=
  fun n => if n < 2 then .failure else .reply " ok "

/-- An LLM oracle that always raises. -/
def alwaysFail : Nat → LlmCall := fun _ => .failure

/-- C7 witness: the amended retry policy at concrete oracles — all-failing
attempts drop after exactly 3 backoffs; a reply at attempt 2 ends the loop
there with 2 backoffs; a non-parsing reply at attempt 2 drops with 2
backoffs. -/
theorem C7_retry_policy_witness :
    organizeSinglePost parseNone alwaysFail 3 {} = (.dropped, 3) ∧
    callRetryLoop failThenReply 3 = .text "ok" 2 2 ∧
    organizeSinglePost parseNone failThenReply 3 {} = (.dropped, 2) := by
  refine ⟨?_, ?_, ?_⟩
  · exact C7_retry_policy_amended.1 alwaysFail 3 parseNone {} (by decide)
  · exact C7_retry_policy_amended.2.1 failThenReply 3 2 " ok " (by decide)
      (by decide) rfl (by decide)
  · exact C7_retry_policy_amended.2.2 failThenReply 3 2 " ok " parseNone {}
      (by decide) (by decide) rfl (by decide) rfl

end ProdScout

namespace ProdScout

/-! ## Claim C8 — environment credential file parsing -/

/-- Whether a line's key is exactly `TWITTER_AUTH_TOKEN`. -/
def isAuthLine (l : String) : Bool :=
  envKey l == some "TWITTER_AUTH_TOKEN"

/-- Whether a line's key is exactly `TWITTER_CT0` or `XCSRF_TOKEN`. -/
def isCt0Line (l : String) : Bool :=
  envKey l == some "TWITTER_CT0" || envKey l == some "XCSRF_TOKEN"

/-- A non-auth line never changes the auth token. -/
theorem envStep_fst_of_not_auth (st : String × String) (l : String)
    (h : isAuthLine l = false) : (envStep st l).1 = st.1 := by
  unfold envStep
  cases hk : envKey l with
  | none => rfl
  | some k =>
    dsimp only
    have hne : k ≠ "TWITTER_AUTH_TOKEN" := by
      unfold isAuthLine at h
      rw [hk] at h
      simpa using h
    rw [if_neg hne]
    split <;> rfl

/-- A non-csrf line never changes the csrf token. -/
theorem envStep_snd_of_not_ct0 (st : String × String) (l : String)
    (h : isCt0Line l = false) : (envStep st l).2 = st.2 := by
  unfold envStep
  cases hk : envKey l with
  | none => rfl
  | some k =>
    dsimp only
    have hne : k ≠ "TWITTER_CT0" ∧ k ≠ "XCSRF_TOKEN" := by
      unfold isCt0Line at h
      rw [hk] at h
      simpa using h
    by_cases ha : k = "TWITTER_AUTH_TOKEN"
    · rw [if_pos ha]
    · rw [if_neg ha, if_neg (by simp [hne.1, hne.2])]

/-- An auth line overwrites the auth token with its value. -/
theorem envStep_auth (st : String × String) (l : String)
    (h : isAuthLine l = true) : envStep st l = (envVal l, st.2) := by
  unfold envStep
  unfold isAuthLine at h
  cases hk : envKey l with
  | none => rw [hk] at h; simp at h
  | some k =>
    dsimp only
    rw [hk] at h
    have hp : k = "TWITTER_AUTH_TOKEN" := by simpa using h
    rw [if_pos hp]

/-- A csrf line overwrites the csrf token with its value. -/
theorem envStep_ct0 (st : String × String) (l : String)
    (h : isCt0Line l = true) : envStep st l = (st.1, envVal l) := by
  unfold envStep
  unfold isCt0Line at h
  cases hk : envKey l with
  | none => rw [hk] at h; simp at h
  | some k =>
    dsimp only
    rw [hk] at h
    have hp : k = "TWITTER_CT0" ∨ k = "XCSRF_TOKEN" := by simpa using h
    have hne : k ≠ "TWITTER_AUTH_TOKEN" := by
      rcases hp with hp | hp <;> subst hp <;> decide
    rw [if_neg hne, if_pos (by rcases hp with hp | hp <;> simp [hp])]

/-- Folding lines none of which carry the auth key leaves the auth token. -/
theorem envFold_fst_of_all_not_auth (ls : List String) :
    ∀ st : String × String, ls.all (fun l => !isAuthLine l) = true →
    (envFold st ls).1 = st.1 := by
  induction ls with
  | nil => intro st _; rfl
  | cons l rest ih =>
    intro st h
    simp only [List.all_cons, Bool.and_eq_true, Bool.not_eq_true'] at h
    unfold envFold at *
    simp only [List.foldl_cons]
    rw [ih (envStep st l) (by simpa using h.2), envStep_fst_of_not_auth st l h.1]

/-- Folding lines none of which carry a csrf key leaves the csrf token. -/
theorem envFold_snd_of_all_not_ct0 (ls : List String) :
    ∀ st : String × String, ls.all (fun l => !isCt0Line l) = true →
    (envFold st ls).2 = st.2 := by
  induction ls with
  | nil => intro st _; rfl
  | cons l rest ih =>
    intro st h
    simp only [List.all_cons, Bool.and_eq_true, Bool.not_eq_true'] at h
    unfold envFold at *
    simp only [List.foldl_cons]
    rw [ih (envStep st l) (by simpa using h.2), envStep_snd_of_not_ct0 st l h.1]

/-- C8 (amended): on the env-file parse, key matching is exact — a line whose
key is none of `TWITTER_AUTH_TOKEN`, `TWITTER_CT0`, `XCSRF_TOKEN` (such as
`TWITTER_AUTH_TOKEN_BACKUP`) changes nothing; only a line whose key is
exactly `TWITTER_AUTH_TOKEN` sets the auth token, and only a
`TWITTER_CT0`/`XCSRF_TOKEN` line sets the csrf token — but the LAST matching
line wins (each matching line overwrites the previous value), not the
first. -/
theorem C8_env_exact_and_last_wins :
    (∀ (st : String × String) (line : String) (k : String),
      envKey line = some k → k ≠ "TWITTER_AUTH_TOKEN" → k ≠ "TWITTER_CT0" →
      k ≠ "XCSRF_TOKEN" → envStep st line = st) ∧
    (∀ (st : String × String) (ls₁ : List String) (line : String)
        (ls₂ : List String),
      isAuthLine line = true → ls₂.all (fun l => !isAuthLine l) = true →
      (envFold st (ls₁ ++ line :: ls₂)).1 = envVal line) ∧
    (∀ (st : String × String) (ls₁ : List String) (line : String)
        (ls₂ : List String),
      isCt0Line line = true → ls₂.all (fun l => !isCt0Line l) = true →
      (envFold st (ls₁ ++ line :: ls₂)).2 = envVal line) := by
  refine ⟨?_, ?_, ?_⟩
  · intro st line k hk h1 h2 h3
    unfold envStep
    rw [hk]
    dsimp only
    rw [if_neg h1, if_neg (by simp [h2, h3])]
  · intro st ls₁ line ls₂ hline hrest
    unfold envFold
    rw [List.foldl_append, List.foldl_cons]
    have := envFold_fst_of_all_not_auth ls₂
      (envStep (List.foldl envStep st ls₁) line) hrest
    unfold envFold at this
    rw [this, envStep_auth _ line hline]
  · intro st ls₁ line ls₂ hline hrest
    unfold envFold
    rw [List.foldl_append, List.foldl_cons]
    have := envFold_snd_of_all_not_ct0 ls₂
      (envStep (List.foldl envStep st ls₁) line) hrest
    unfold envFold at this
    rw [this, envStep_ct0 _ line hline]

/-- The concrete env file for the C8 counterexample. -/
def c8Lines : List String :=
  ["TWITTER_AUTH_TOKEN=\"tokA\"", "TWITTER_CT0=\"csrfFirst\"",
   "XCSRF_TOKEN=\"csrfLast\"", "TWITTER_AUTH_TOKEN_BACKUP=ignored"]

/-- C8 counterexample: with a `TWITTER_CT0` line before an `XCSRF_TOKEN`
line, the csrf token ends up as the LAST matching line's value, not the
first's — the claimed "first matching line wins" is false. -/
theorem C8_first_match_counterexample :
    fromEnvFile c8Lines = some ("tokA", "csrfLast") ∧
    envVal "TWITTER_CT0=\"csrfFirst\"" = "csrfFirst" ∧
    (envFold ("", "") c8Lines).2 ≠ "csrfFirst" := by
  refine ⟨rfl, rfl, by decide⟩

/-- C8 witness: the amended behaviour at a concrete file — the backup key is
ignored, and the auth/csrf tokens equal their last matching lines' values. -/
theorem C8_env_witness :
    envStep ("a", "c") "TWITTER_AUTH_TOKEN_BACKUP=zzz" = ("a", "c") ∧
    (envFold ("", "") (["# head", "TWITTER_AUTH_TOKEN=tok"] ++
      "TWITTER_CT0=first" :: ["XCSRF_TOKEN=last", "OTHER=z"])).2
        = envVal "XCSRF_TOKEN=last" := by
  constructor
  · exact C8_env_exact_and_last_wins.1 ("a", "c") "TWITTER_AUTH_TOKEN_BACKUP=zzz"
      "TWITTER_AUTH_TOKEN_BACKUP" (by decide) (by decide) (by decide) (by decide)
  · exact C8_env_exact_and_last_wins.2.2 ("", "")
      ["# head", "TWITTER_AUTH_TOKEN=tok", "TWITTER_CT0=first"] "XCSRF_TOKEN=last"
      ["OTHER=z"] (by decide) (by decide)

end ProdScout

namespace ProdScout

/-! ## Claim C9 — tweet → RawPost content round-trip -/

/-- `pyStartsWith` agrees with list-prefix. -/
theorem pyStartsWith_iff (s pat : List Char) :
    pyStartsWith s pat = true ↔ pat <+: s := by
  induction s generalizing pat with
  | nil =>
    cases pat with
    | nil => simp [pyStartsWith]
    | cons p ps => simp [pyStartsWith]
  | cons c s' ih =>
    cases pat with
    | nil => simp [pyStartsWith]
    | cons p ps =>
      simp only [pyStartsWith, Bool.and_eq_true, beq_iff_eq, ih,
        List.cons_prefix_cons]
      constructor
      · rintro ⟨h1, h2⟩; exact ⟨h1.symm, h2⟩
      · rintro ⟨h1, h2⟩; exact ⟨h1.symm, h2⟩

/-- `pyContains` agrees with list-infix. -/
theorem pyContains_iff (s pat : List Char) :
    pyContains s pat = true ↔ pat <:+: s := by
  induction s with
  | nil =>
    simp only [pyContains, Bool.or_eq_true, pyStartsWith_iff, List.infix_nil,
      List.prefix_nil]
    constructor
    · rintro (h | h)
      · exact h
      · exact absurd h (by simp)
    · intro h; exact Or.inl h
  | cons c t ih =>
    simp only [pyContains, Bool.or_eq_true, pyStartsWith_iff, ih]
    rw [List.infix_cons_iff]

/-- Every element of `parts` is a substring of `"\n".join(parts)`. -/
theorem infix_of_mem_joinNl (parts : List (List Char)) (p : List Char)
    (h : p ∈ parts) : p <:+: joinNl parts := by
  induction parts with
  | nil => cases h
  | cons q qs ih =>
    cases qs with
    | nil =>
      rcases List.mem_cons.mp h with h | h
      · subst h
        exact List.infix_rfl
      · cases h
    | cons r rs =>
      rcases List.mem_cons.mp h with h | h
      · subst h
        exact List.IsPrefix.isInfix (List.prefix_append p ('\n' :: joinNl (r :: rs)))
      · have h1 : joinNl (r :: rs) <:+: q ++ '\n' :: joinNl (r :: rs) := by
          refine List.IsSuffix.isInfix ?_
          exact ⟨q ++ ['\n'], by simp⟩
        exact List.IsInfix.trans (ih h) h1

/-- A URL's escaped text sits inside its anchor element. -/
theorem infix_anchorFor (e : List Char) : e <:+: anchorFor e :=
  ⟨"<a href=\"".data, "\">".data ++ e ++ "</a>".data, by simp [anchorFor]⟩

/-- When no URL's escaped form occurs in the running text, the URL loop
leaves the text unchanged and appends one anchor per URL. -/
theorem contentUrlLoop_no_hit (urls : List String) :
    ∀ (text : List Char) (parts : List (List Char)),
    (∀ u ∈ urls, pyContains text (htmlEscape u.data) = false) →
    contentUrlLoop urls text parts
      = (text, parts ++ urls.map (fun u => anchorFor (htmlEscape u.data))) := by
  induction urls with
  | nil => intro text parts _; simp [contentUrlLoop]
  | cons u rest ih =>
    intro text parts h
    unfold contentUrlLoop
    rw [if_neg (by rw [h u (List.mem_cons_self u rest)]; simp)]
    rw [ih text (parts ++ [anchorFor (htmlEscape u.data)])
      (fun v hv => h v (List.mem_cons_of_mem u hv))]
    simp

/-- C9 (amended): the `RawPost` content produced by `to_post_dict` contains,
as a substring, the HTML-ESCAPED form of every URL of the tweet, provided no
URL's escaped form already occurs in the escaped tweet text (the common case:
t.co-shortened bodies).  The raw URL itself need not appear (escaping rewrites
`&`, `<`, `>`, `"`, `'`), and when one URL's escaped form occurs inside the
text or inside a previously rewritten anchor, a later URL's rewrite can
destroy the earlier URL's occurrence. -/
theorem C9_content_contains_escaped_urls (render : Int → String) (t : Tweet)
    (sourceName : String)
    (h : t.urls.all
      (fun u => !pyContains (htmlEscape t.text.data) (htmlEscape u.data)) = true) :
    t.urls.all
      (fun u => pyContains (toPostDict render t sourceName).content
        (htmlEscape u.data)) = true := by
  rw [List.all_eq_true] at h ⊢
  intro u hu
  have h' : ∀ v ∈ t.urls,
      pyContains (htmlEscape t.text.data) (htmlEscape v.data) = false := by
    intro v hv
    have := h v hv
    simpa using this
  show pyContains (buildContentHtml t) (htmlEscape u.data) = true
  unfold buildContentHtml
  rw [contentUrlLoop_no_hit t.urls (htmlEscape t.text.data) [] h']
  dsimp only
  rw [pyContains_iff]
  refine List.IsInfix.trans (infix_anchorFor (htmlEscape u.data)) ?_
  refine infix_of_mem_joinNl _ _ ?_
  simp only [List.nil_append]
  refine List.mem_cons_of_mem _ ?_
  refine List.mem_append_left _ ?_
  refine List.mem_append_left _ ?_
  exact List.mem_map_of_mem (fun u => anchorFor (htmlEscape u.data)) hu

/-- The C9 counterexample tweets. -/
def c9tweet : Tweet := { text := "x", urls := ["a&b"] }

/-- A tweet whose second URL's rewrite destroys the first URL in the text. -/
def c9tweet2 : Tweet := { text := "http://a/b", urls := ["http://a/b", "http://a"] }

/-- C9 counterexample: the content contains URLs only HTML-escaped — a URL
containing `&` does not appear verbatim; moreover rewriting a later URL that
is a substring of an earlier one destroys the earlier URL's occurrence, so
even nested plain URLs can go missing. -/
theorem C9_url_substring_counterexample :
    "a&b" ∈ c9tweet.urls ∧
    pyContains (toPostDict (fun _ => "") c9tweet "src").content "a&b".data
      = false ∧
    "http://a/b" ∈ c9tweet2.urls ∧
    pyContains (toPostDict (fun _ => "") c9tweet2 "src").content
      "http://a/b".data = false := by
  refine ⟨by decide, by decide, by decide, by decide⟩

/-- The C9 witness tweet: no URL occurs in the body text. -/
def c9okTweet : Tweet := { text := "hello", urls := ["http://a", "http://b"] }

/-- C9 witness: the amended containment at a concrete tweet. -/
theorem C9_contains_witness :
    c9okTweet.urls.all
      (fun u => pyContains (toPostDict (fun _ => "") c9okTweet "src").content
        (htmlEscape u.data)) = true := by
  exact C9_content_contains_escaped_urls (fun _ => "") c9okTweet "src" (by decide)

end ProdScout

namespace ProdScout

/-! ## Claim C2 — credential pool safety -/

/-- Anything `get_next`'s scan returns was available at the call's clock
value: not dead, and not cooling past `now`. -/
theorem getNextGo_some_available (now : Nat) :
    ∀ (k : Nat) (p : AccountPool) (a : AccountState),
    (getNextGo now k p).1 = some a →
    a.is_dead = false ∧ a.cooldown_until ≤ now := by
  intro k
  induction k with
  | zero => intro p a h; cases h
  | succ k ih =>
    intro p a h
    simp only [getNextGo] at h
    cases hg : p.accounts.get? p.currentIndex with
    | none => rw [hg] at h; cases h
    | some b =>
      rw [hg] at h
      dsimp only at h
      by_cases hav : isAvailable b now
      · rw [if_pos hav] at h
        simp only [Option.some.injEq] at h
        unfold isAvailable at hav
        simp only [Bool.and_eq_true, Bool.not_eq_true', decide_eq_false_iff_not,
          Nat.not_lt] at hav
        subst h
        exact ⟨hav.1, hav.2⟩
      · rw [if_neg hav] at h
        exact ih _ a h

/-- With every account dead, `get_next` scans the whole ring, returns
nothing, and leaves the accounts list untouched. -/
theorem getNextGo_allDead (now : Nat) :
    ∀ (k : Nat) (p : AccountPool), (∀ b ∈ p.accounts, b.is_dead = true) →
    (getNextGo now k p).1 = none ∧ (getNextGo now k p).2.accounts = p.accounts := by
  intro k
  induction k with
  | zero => intro p _; exact ⟨rfl, rfl⟩
  | succ k ih =>
    intro p h
    simp only [getNextGo]
    cases hg : p.accounts.get? p.currentIndex with
    | none => exact ⟨rfl, rfl⟩
    | some b =>
      dsimp only
      have hbmem : b ∈ p.accounts := List.get?_mem hg
      have hdead : b.is_dead = true := h b hbmem
      have hav : isAvailable b now = false := by
        unfold isAvailable
        rw [hdead]
        rfl
      rw [if_neg (by rw [hav]; simp)]
      exact ih _ (by simpa using h)

/-- `get_next` on an all-dead pool: no credential, accounts unchanged. -/
theorem getNext_allDead (p : AccountPool) (now : Nat)
    (h : ∀ b ∈ p.accounts, b.is_dead = true) :
    (getNext p now).1 = none ∧ (getNext p now).2.accounts = p.accounts :=
  getNextGo_allDead now p.accounts.length p h

/-- Every credential handed out along any operation sequence was eligible at
the clock value of its `get_next` call. -/
theorem runOps_trace_safe (ops : List PoolOp) :
    ∀ p : AccountPool,
    ((runOps p ops).2.all fun pr =>
      match pr.2 with
      | none => true
      | some a => !a.is_dead && decide (a.cooldown_until ≤ pr.1)) = true := by
  induction ops with
  | nil => intro p; rfl
  | cons op rest ih =>
    intro p
    cases op with
    | opGetNext now =>
      simp only [runOps, List.all_cons, Bool.and_eq_true]
      refine ⟨?_, ih (getNext p now).2⟩
      cases hr : (getNext p now).1 with
      | none => rfl
      | some a =>
        have := getNextGo_some_available now p.accounts.length p a hr
        simp [this.1, this.2]
    | opRateLimit idx now cd =>
      simp only [runOps]
      exact ih (markRateLimited p idx now cd)
    | opMarkDead idx reason =>
      simp only [runOps]
      exact ih (markDead p idx reason)

/-- With every account dead, `wait_for_available` returns nothing without a
single sleep, whatever the fuel, clock, or deadline. -/
theorem waitForAvailable_allDead (p : AccountPool) (deadline fuel now : Nat)
    (h : p.accounts.all (·.is_dead) = true) :
    waitForAvailable p deadline fuel now = (none, 0) := by
  cases fuel with
  | zero => rfl
  | succ fuel =>
    simp only [waitForAvailable]
    by_cases hlt : now < deadline
    · rw [if_pos hlt]
      have hdead : ∀ b ∈ p.accounts, b.is_dead = true := by
        simpa [List.all_eq_true] using h
      have hgn := getNext_allDead p now hdead
      rw [hgn.1]
      dsimp only
      rw [if_pos (by rw [hgn.2]; exact h)]
    · rw [if_neg hlt]

/-- C2: under any sequence of `get_next` / `mark_rate_limited` /
`mark_dead` operations, `get_next` never hands out a credential that is dead
or whose `cooldown_until` exceeds the call's clock value; and when every
credential is dead, `get_next` returns nothing and `wait_for_available`
returns nothing immediately, performing zero sleeps. -/
theorem C2_pool_safety :
    (∀ (p : AccountPool) (ops : List PoolOp),
      ((runOps p ops).2.all fun pr =>
        match pr.2 with
        | none => true
        | some a => !a.is_dead && decide (a.cooldown_until ≤ pr.1)) = true) ∧
    (∀ (p : AccountPool) (now deadline fuel : Nat),
      p.accounts.all (·.is_dead) = true →
      (getNext p now).1 = none ∧
        waitForAvailable p deadline fuel now = (none, 0)) := by
  refine ⟨fun p ops => runOps_trace_safe ops p, fun p now deadline fuel h => ?_⟩
  have hdead : ∀ b ∈ p.accounts, b.is_dead = true := by
    simpa [List.all_eq_true] using h
  exact ⟨(getNext_allDead p now hdead).1,
    waitForAvailable_allDead p deadline fuel now h⟩

/-- A concrete mixed pool for the C2 witness. -/
def c2pool : AccountPool :=
  { accounts :=
      [{ index := 0, cooldown_until := 100 }, { index := 1 },
       { index := 2, is_dead := true }],
    currentIndex := 0 }

/-- A concrete operation sequence for the C2 witness. -/
def c2ops : List PoolOp :=
  [.opGetNext 50, .opRateLimit 1 50 none, .opGetNext 60, .opMarkDead 1 "auth",
   .opGetNext 2000]

/-- A concrete all-dead pool for the C2 witness. -/
def c2deadPool : AccountPool :=
  { accounts :=
      [{ index := 0, is_dead := true }, { index := 1, is_dead := true }],
    currentIndex := 0 }

/-- C2 witness: the pool safety statement at a concrete pool, operation
sequence, clock, deadline, and fuel. -/
theorem C2_pool_safety_witness :
    ((runOps c2pool c2ops).2.all fun pr =>
      match pr.2 with
      | none => true
      | some a => !a.is_dead && decide (a.cooldown_until ≤ pr.1)) = true ∧
    (getNext c2deadPool 7).1 = none ∧
    waitForAvailable c2deadPool 1800 10 7 = (none, 0) := by
  refine ⟨C2_pool_safety.1 c2pool c2ops, ?_, ?_⟩
  · exact (C2_pool_safety.2 c2deadPool 7 1800 10 (by decide)).1
  · exact (C2_pool_safety.2 c2deadPool 7 1800 10 (by decide)).2

end ProdScout

namespace ProdScout

/-! ## Claim C10 — undated tweets in the paginator -/

/-- C10: in `get_user_tweets_all`'s per-tweet step, a tweet whose
`created_at` is `None` (missing or unparseable date) is always treated as
inside the date window, even when a cutoff is set: it is never counted in
`skipped_old` (so it never feeds the all-old termination ratio), it marks the
page as having new-enough content (so the whole-page-too-old stop cannot
fire because of it), and unless it is filtered as a retweet or a cross-page
duplicate it is appended to the result. -/
theorem C10_undated_tweet_in_window (cutoff : Option Int) (includeRetweets : Bool)
    (limit : Nat) (t : Tweet) (st : PageAcc) (h : t.created_at = none) :
    dateInRange cutoff t = true ∧
    (stepTweet cutoff includeRetweets limit t st).1.skippedOld = st.skippedOld ∧
    (stepTweet cutoff includeRetweets limit t st).1.hasNewEnough = true ∧
    ((includeRetweets = true ∨ t.is_retweet = false) →
      st.seen.contains t.id = false →
      (stepTweet cutoff includeRetweets limit t st).1.acc = st.acc ++ [t]) := by
  have hdr : dateInRange cutoff t = true := by
    unfold dateInRange
    rw [h]
    cases cutoff <;> rfl
  refine ⟨hdr, ?_⟩
  unfold stepTweet
  rw [hdr]
  simp only [if_true, Bool.not_true, Bool.false_eq_true, if_false]
  by_cases hrt : (!includeRetweets && t.is_retweet) = true
  · rw [if_pos hrt]
    refine ⟨rfl, rfl, ?_⟩
    intro hor _
    exfalso
    simp only [Bool.and_eq_true, Bool.not_eq_true'] at hrt
    rcases hor with hor | hor
    · rw [hor] at hrt; cases hrt.1
    · rw [hor] at hrt; cases hrt.2
  · rw [if_neg hrt]
    by_cases hdup : st.seen.contains t.id = true
    · rw [if_pos hdup]
      refine ⟨rfl, rfl, ?_⟩
      intro _ hdup'
      rw [hdup'] at hdup
      cases hdup
    · rw [if_neg hdup]
      exact ⟨rfl, rfl, fun _ _ => rfl⟩

/-- The C10 witness tweet (no parsed date) and page state. -/
def c10t : Tweet := { id := "u77" }

/-- The C10 witness page-loop state. -/
def c10st : PageAcc :=
  { seen := ["a", "b"], acc := [{ id := "a" }, { id := "b" }],
    hasNewEnough := false, skippedOld := 2, skippedRt := 1, skippedDup := 0,
    added := 0, dupSample := "" }

/-- C10 witness: the undated-tweet behaviour at a concrete cutoff, tweet and
state. -/
theorem C10_undated_witness :
    dateInRange (some 5) c10t = true ∧
    (stepTweet (some 5) false 10 c10t c10st).1.skippedOld = c10st.skippedOld ∧
    (stepTweet (some 5) false 10 c10t c10st).1.hasNewEnough = true ∧
    (stepTweet (some 5) false 10 c10t c10st).1.acc = c10st.acc ++ [c10t] := by
  obtain ⟨h1, h2, h3, h4⟩ :=
    C10_undated_tweet_in_window (some 5) false 10 c10t c10st rfl
  exact ⟨h1, h2, h3, h4 (Or.inr rfl) (by decide)⟩

end ProdScout

namespace ProdScout

/-! ## Claim C1 — paginator result invariants -/

/-- The per-tweet part of the paginator's result invariant: inside the date
window, and no retweet when retweets are excluded. -/
def TweetOk (cutoff : Option Int) (rt : Bool) (t : Tweet) : Prop :=
  dateInRange cutoff t = true ∧ (rt = false → t.is_retweet = false)

/-- The paginator's accumulator invariant: every accumulated id is
registered in `seen`, ids are pairwise distinct, and every accumulated tweet
passed the filters. -/
def AccInv (cutoff : Option Int) (rt : Bool) (seen : List String)
    (acc : List Tweet) : Prop :=
  (∀ t ∈ acc, t.id ∈ seen) ∧ ((acc.map Tweet.id).Nodup) ∧
    ∀ t ∈ acc, TweetOk cutoff rt t

/-- One per-tweet step preserves the accumulator invariant. -/
theorem stepTweet_inv (cutoff : Option Int) (rt : Bool) (limit : Nat) (t : Tweet)
    (st : PageAcc) (h : AccInv cutoff rt st.seen st.acc) :
    AccInv cutoff rt (stepTweet cutoff rt limit t st).1.seen
      (stepTweet cutoff rt limit t st).1.acc := by
  unfold stepTweet
  by_cases hin : dateInRange cutoff t = true
  · rw [hin]
    simp only [if_true, Bool.not_true, Bool.false_eq_true, if_false]
    by_cases hrt : (!rt && t.is_retweet) = true
    · rw [if_pos hrt]
      exact h
    · rw [if_neg hrt]
      by_cases hdup : st.seen.contains t.id = true
      · rw [if_pos hdup]
        exact h
      · rw [if_neg hdup]
        have hnotmem : t.id ∉ st.seen := by simpa using hdup
        show AccInv cutoff rt (t.id :: st.seen) (st.acc ++ [t])
        refine ⟨?_, ?_, ?_⟩
        · intro u hu
          rcases List.mem_append.mp hu with hu | hu
          · exact List.mem_cons_of_mem _ (h.1 u hu)
          · rw [List.mem_singleton.mp hu]
            exact List.mem_cons_self _ _
        · rw [List.map_append]
          refine List.Nodup.append h.2.1 (List.nodup_singleton _) ?_
          intro x hx hx'
          rw [List.mem_singleton.mp hx'] at hx
          rcases List.mem_map.mp hx with ⟨u, hu, hid⟩
          exact hnotmem (hid ▸ h.1 u hu)
        · intro u hu
          rcases List.mem_append.mp hu with hu | hu
          · exact h.2.2 u hu
          · rw [List.mem_singleton.mp hu]
            refine ⟨hin, fun hrf => ?_⟩
            subst hrf
            simpa using hrt
  · have hf : dateInRange cutoff t = false := by simpa using hin
    rw [hf]
    simp only [Bool.false_eq_true, if_false, Bool.not_false, if_true]
    exact h

/-- A whole page's tweet loop preserves the accumulator invariant. -/
theorem processPage_inv (cutoff : Option Int) (rt : Bool) (limit : Nat) :
    ∀ (tweets : List Tweet) (st : PageAcc),
    AccInv cutoff rt st.seen st.acc →
    AccInv cutoff rt (processPage cutoff rt limit tweets st).seen
      (processPage cutoff rt limit tweets st).acc := by
  intro tweets
  induction tweets with
  | nil => intro st h; exact h
  | cons t rest ih =>
    intro st h
    rw [processPage]
    have hstep := stepTweet_inv cutoff rt limit t st h
    split
    · exact hstep
    · exact ih _ hstep

/-- The outer pagination loop's result satisfies the invariant whenever the
starting sweep state does. -/
theorem sweepLoop_inv (fetch : FetchOracle) (limit : Nat) (cutoff : Option Int)
    (rt : Bool) :
    ∀ (fuel : Nat) (s : SweepState),
    AccInv cutoff rt s.seenIds s.allTweets →
    ((sweepLoop fetch limit cutoff rt fuel s).map Tweet.id).Nodup ∧
      ∀ t ∈ sweepLoop fetch limit cutoff rt fuel s, TweetOk cutoff rt t := by
  intro fuel
  induction fuel with
  | zero => intro s h; exact ⟨h.2.1, h.2.2⟩
  | succ fuel ih =>
    intro s h
    rw [sweepLoop]
    by_cases hlim : ¬(s.allTweets.length < limit)
    · rw [if_pos hlim]
      exact ⟨h.2.1, h.2.2⟩
    · rw [if_neg hlim]
      have hpa := processPage_inv cutoff rt limit
        ((fetch (s.page + 1) (min 20 (limit - s.allTweets.length)) s.cursor).1)
        { seen := s.seenIds, acc := s.allTweets, hasNewEnough := false,
          skippedOld := 0, skippedRt := 0, skippedDup := 0, added := 0,
          dupSample := "" } h
      repeat' split
      all_goals
        first
          | exact ⟨h.2.1, h.2.2⟩
          | exact ⟨hpa.2.1, hpa.2.2⟩
          | (apply ih; exact hpa)

/-- The invariant holds of the empty starting state. -/
theorem AccInv_nil (cutoff : Option Int) (rt : Bool) : AccInv cutoff rt [] [] := by
  unfold AccInv
  exact ⟨fun t ht => absurd ht (List.not_mem_nil t), List.nodup_nil,
    fun t ht => absurd ht (List.not_mem_nil t)⟩

/-- C1: for every oracle, limit, cutoff, retweet setting and fuel, the list
returned by `get_user_tweets_all` has pairwise-distinct tweet ids; no
returned tweet's parsed `created_at` precedes the (parsed) `since_date`
cutoff — an unparseable date never precedes it; and with
`include_retweets = false` no returned tweet is a retweet. -/
theorem C1_paginator_invariants (fetch : FetchOracle) (limit : Nat)
    (cutoff : Option Int) (rt : Bool) (fuel : Nat) :
    ((getUserTweetsAll fetch limit cutoff rt fuel).map Tweet.id).Nodup ∧
    (getUserTweetsAll fetch limit cutoff rt fuel).all
      (fun t => dateInRange cutoff t) = true ∧
    (getUserTweetsAll fetch limit cutoff false fuel).all
      (fun t => !t.is_retweet) = true := by
  have h1 := sweepLoop_inv fetch limit cutoff rt fuel
    { allTweets := [], seenIds := [], seenCursors := [], cursor := none,
      emptyAddPages := 0, page := 0 } (AccInv_nil cutoff rt)
  have h2 := sweepLoop_inv fetch limit cutoff false fuel
    { allTweets := [], seenIds := [], seenCursors := [], cursor := none,
      emptyAddPages := 0, page := 0 } (AccInv_nil cutoff false)
  refine ⟨h1.1, ?_, ?_⟩
  · rw [List.all_eq_true]
    intro t ht
    exact (h1.2 t ht).1
  · rw [List.all_eq_true]
    intro t ht
    simpa using (h2.2 t ht).2 rfl

end ProdScout

namespace ProdScout

/-- A concrete accepted post with a resolvable entity, for the C6 witness. -/
def c6okPost : OrgPost :=
  { domain := some "D", quality_score := some 5,
    source_name := some "s", primary_entity := some "OpenAI" }

/-- C6 witness: the amended manifest statistics at a concrete batch — with
every post accepted and entity-resolved, the entity sum equals
`total_posts`. -/
theorem C6_manifest_stats_witness :
    (runWriter [] md5stub "out" [c6okPost]).totalPosts
      = entityTotal (runWriter [] md5stub "out" [c6okPost]) := by
  exact (C6_manifest_stats_amended [] md5stub "out" [c6okPost]).2.2 (by decide)

end ProdScout
